import Mathlib

/-!
Verification of the pforward plugin (src/forward.go) against its
natural-language specification.

The development shallowly embeds the per-request fan-out path of
`Forward.ServeDNS` (src/forward.go lines 70-211) together with the
admission functions `match` / `isAllowedDomain` (lines 214-233).

External collaborators (the transport call `proxy.Connect`, the health
predicate `proxy.Down`, the match predicate `state.Match`) are inputs of
the embedding: a worker is parameterised by the sequence of results its
`Connect` calls would return and by an oracle giving the answers of the
`proxy.Down` calls it makes.  `proxy.Healthcheck()` is fire-and-forget
and has no observable effect inside ServeDNS, so it is not represented.
-/

namespace PForward

/-- Errors of the model.  `cachedClosed` is the sentinel `ErrCachedClosed`
(src/forward.go line 250), `noHealthy` is `ErrNoHealthy` (line 246), and
`generic k` stands for any other (transport) error value, tagged by `k`
so that distinct errors are distinguishable. -/
inductive Err where
  | cachedClosed : Err
  | noHealthy : Err
  | generic : Nat → Err
deriving DecidableEq

/-- A DNS resource record, reduced to the fields ServeDNS inspects:
`rrtype` is `rr.Header().Rrtype`, and `rdata` tags the rest of the record
so that distinct records are distinguishable. -/
structure RR where
  rrtype : Nat
  rdata : Nat
deriving DecidableEq

/-- dns.TypeA. -/
def typeA : Nat := 1
/-- dns.TypeAAAA. -/
def typeAAAA : Nat := 28
/-- dns.RcodeFormatError. -/
def rcodeFormatError : Nat := 1
/-- dns.RcodeServerFailure. -/
def rcodeServerFailure : Nat := 2

/-- A DNS message, reduced to the fields ServeDNS inspects: the header
bits that matter (`truncated` = `Truncated`), the rcode, the answer
section, and an `id` tagging the rest of the message (transaction id,
question section, remaining header) so that distinct messages are
distinguishable. -/
structure Msg where
  id : Nat
  rcode : Nat
  truncated : Bool
  answer : List RR
deriving DecidableEq

/-- The `options` struct of src/forward.go lines 254-257. -/
structure options where
  forceTCP : Bool
  preferUDP : Bool
deriving DecidableEq

/-- The result of one `proxy.Connect` call: the `(*dns.Msg, error)` pair
it returns (`none` models Go `nil`). -/
structure ConnectResult where
  ret : Option Msg
  err : Option Err
deriving DecidableEq

/-- The `fwdResp` struct of src/forward.go lines 63-67. -/
structure fwdResp where
  ret : Option Msg
  code : Nat
  upstreamErr : Option Err
deriving DecidableEq

/-- The reply synthesized by `formerr.SetRcode(state.Req, dns.RcodeFormatError)`
(src/forward.go lines 151-152): a fresh message carrying the request's
identity with the format-error rcode and an empty answer section. -/
def formErrMsg (req : Msg) : Msg :=
  { id := req.id, rcode := rcodeFormatError, truncated := false, answer := [] }

/-- Outcome of the inner retry loop of a worker (src/forward.go lines
112-123): the final `(ret, err)` pair, the options after truncation
escalation, the Connect results not yet consumed, and the number of
Connect calls the inner loop made. -/
structure ConnectOut where
  ret : Option Msg
  err : Option Err
  opts : options
  rest : List ConnectResult
  calls : Nat
deriving DecidableEq

/-- The inner retry loop of a worker, src/forward.go lines 112-123:

    for {
      ret, err = proxy.Connect(ctxInner, state, opts)
      if err == ErrCachedClosed { continue }
      if ret != nil && ret.Truncated && !opts.forceTCP && opts.preferUDP {
        opts.forceTCP = true
        continue
      }
      break
    }

`conns` is the sequence of results the successive `proxy.Connect` calls
return.  The Go loop has no bound of its own; if it would consume more
Connect results than `conns` provides (i.e. diverge on an infinite run of
retriable results), the model returns `none`. -/
def connectLoop : List ConnectResult → options → Option ConnectOut
  | [], _ => none
  | c :: rest, opts =>
    if c.err = some Err.cachedClosed then
      (connectLoop rest opts).map (fun o => { o with calls := o.calls + 1 })
    else if (match c.ret with | some m => m.truncated | none => false)
            && !opts.forceTCP && opts.preferUDP then
      (connectLoop rest { opts with forceTCP := true }).map
        (fun o => { o with calls := o.calls + 1 })
    else
      some { ret := c.ret, err := c.err, opts := opts, rest := rest, calls := 1 }

/-- The body of one worker goroutine, src/forward.go lines 98-167:

    var fails uint32 = 0
    for fails < f.maxfails {
      opts := f.opts
      (inner retry loop)                      -- `connectLoop`
      if err != nil {
        if f.maxfails != 0 { proxy.Healthcheck() }
        fails++
        if !proxy.Down(f.maxfails) { continue }
        ch <- fwdResp{nil, 0, err}; break
      }
      if !state.Match(ret) { ch <- fwdResp{formerr, 0, nil}; break }
      else                 { ch <- fwdResp{ret, 0, nil}; break }
    }

Arguments: `opts0` is `f.opts` (copied afresh at the top of every outer
iteration, exactly as the source does), `mq` is the oracle for
`state.Match`, `req` is `state.Req`, `maxfails` is `f.maxfails`, and
`down fails` is the oracle answer of the `proxy.Down(f.maxfails)` call
made when the worker's local counter has the value `fails` (the call at
line 136 happens right after `fails++`).  The loop counter is carried as
the remaining budget `gas = maxfails - fails`; `acc` accumulates the
number of Connect calls made.  The result is the list of values pushed
to `ch` paired with the total number of Connect calls; `none` models a
diverging inner loop. -/
def workerGo (opts0 : options) (mq : Option Msg → Bool) (req : Msg)
    (maxfails : Nat) (down : Nat → Bool) :
    Nat → List ConnectResult → Nat → Option (List fwdResp × Nat)
  | 0, _, acc => some ([], acc)
  | gas+1, conns, acc =>
    match connectLoop conns opts0 with
    | none => none
    | some o =>
      match o.err with
      | some e =>
        if down (maxfails - gas) then
          some ([{ ret := none, code := 0, upstreamErr := some e }], acc + o.calls)
        else
          workerGo opts0 mq req maxfails down gas o.rest (acc + o.calls)
      | none =>
        if !(mq o.ret) then
          some ([{ ret := some (formErrMsg req), code := 0, upstreamErr := none }],
                acc + o.calls)
        else
          some ([{ ret := o.ret, code := 0, upstreamErr := none }], acc + o.calls)

/-- One whole worker goroutine (src/forward.go lines 94-168): the loop of
`workerGo` started with `fails = 0` and no Connect calls made yet. -/
def worker (opts0 : options) (mq : Option Msg → Bool) (req : Msg)
    (maxfails : Nat) (down : Nat → Bool) (conns : List ConnectResult) :
    Option (List fwdResp × Nat) :=
  workerGo opts0 mq req maxfails down maxfails conns 0

/-- Modelled from the spec: `Proxy.Down` is not under src/ (the Proxy
type lives in the repository's other files).  Section 4.3 of the spec
describes the terminal transition as "if failure counter has now reached
the configured threshold", so the spec-modelled health predicate answers
true exactly when the failure counter has reached `maxfails`. -/
def specDown (maxfails : Nat) : Nat → Bool :=
  fun fails => decide (maxfails ≤ fails)

/-- One step of the aggregation switch, src/forward.go lines 186-193:

    switch rr.Header().Rrtype {
    case dns.TypeA:    ipAnswers = append(ipAnswers, rr); successRet = resp.ret
    case dns.TypeAAAA: ipAnswers = append(ipAnswers, rr); successRet = resp.ret
    }

The accumulator pairs `successRet` with `ipAnswers`. -/
def collectRR (m : Msg) (acc : Option Msg × List RR) (rr : RR) :
    Option Msg × List RR :=
  if rr.rrtype = typeA then (some m, acc.2 ++ [rr])
  else if rr.rrtype = typeAAAA then (some m, acc.2 ++ [rr])
  else acc

/-- Processing of one collected response, src/forward.go lines 181-195:
responses with a nil `ret` are skipped, otherwise every record of the
answer section goes through the aggregation switch. -/
def collectResp (acc : Option Msg × List RR) (r : fwdResp) :
    Option Msg × List RR :=
  match r.ret with
  | none => acc
  | some m => m.answer.foldl (collectRR m) acc

/-- The aggregation pass of ServeDNS, src/forward.go lines 179-195,
started from `var successRet *dns.Msg` (nil) and an empty `ipAnswers`. -/
def collect (resps : List fwdResp) : Option Msg × List RR :=
  resps.foldl collectResp (none, [])

/-- The first non-nil `upstreamErr` among the collected responses, i.e.
the value returned by the loop at src/forward.go lines 203-209. -/
def firstUpstreamErr : List fwdResp → Option Err
  | [] => none
  | r :: rs =>
    match r.upstreamErr with
    | some e => some e
    | none => firstUpstreamErr rs

/-- Observable result of ServeDNS after the responses are collected:
either a reply was written to the response writer and `(0, nil)`
returned, or nothing was written and `(code, err)` returned.  `nilDeref`
marks the (unreachable) nil-pointer write `successRet.Answer = ipAnswers`
with a nil `successRet`. -/
inductive ServeResult where
  | written : Msg → ServeResult
  | failed : Nat → Option Err → ServeResult
  | nilDeref : ServeResult
deriving DecidableEq

/-- The reply written by a `ServeResult`, if any. -/
def serveWritten : ServeResult → Option Msg
  | ServeResult.written m => some m
  | _ => none

/-- The answer section of the reply written by a `ServeResult`, if any. -/
def serveAnswer : ServeResult → Option (List RR)
  | ServeResult.written m => some m.answer
  | _ => none

/-- The tail of ServeDNS, src/forward.go lines 197-211:

    if len(ipAnswers) > 0 {
      successRet.Answer = ipAnswers
      w.WriteMsg(successRet)
      return 0, nil
    }
    for _, resp := range resps {
      if resp.upstreamErr == nil { continue }
      return dns.RcodeServerFailure, resp.upstreamErr
    }
    return dns.RcodeServerFailure, ErrNoHealthy
-/
def finish (resps : List fwdResp) : ServeResult :=
  if 0 < (collect resps).2.length then
    match (collect resps).1 with
    | some m => ServeResult.written { m with answer := (collect resps).2 }
    | none => ServeResult.nilDeref
  else
    match firstUpstreamErr resps with
    | some e => ServeResult.failed rcodeServerFailure (some e)
    | none => ServeResult.failed rcodeServerFailure (some Err.noHealthy)

/-- One proxy as seen by one execution of ServeDNS: the answer of the
`proxy.Down(f.maxfails)` call made by the live-set filter (line 83), the
oracle for the `proxy.Down` calls made inside the worker, and the
sequence of results of its `proxy.Connect` calls. -/
structure ProxyM where
  downAtDispatch : Bool
  down : Nat → Bool
  conns : List ConnectResult

/-- The admitted-query path of ServeDNS, src/forward.go lines 79-211:
filter the policy's list into the live set (lines 81-87), run one worker
per live proxy (lines 89-172), collect all pushed responses (lines
174-177) and finish (lines 179-211).  `list` is the output of
`f.List()`.  The channel delivers the workers' pushes in some
interleaving of the per-worker orders; the model fixes spawn order (each
worker pushes at most one value, and the aggregation theorems quantify
over arbitrary orders separately).  The result is `none` when some
worker diverges, in which case `wg.Wait()` never returns. -/
def serveDNS (maxfails : Nat) (opts0 : options) (mq : Option Msg → Bool)
    (req : Msg) (list : List ProxyM) : Option ServeResult :=
  ((list.filter (fun p => !p.downAtDispatch)).mapM
      (fun p => worker opts0 mq req maxfails p.down p.conns)).map
    (fun runs => finish (List.flatten (runs.map Prod.fst)))

/-- Modelled from the spec: `plugin.Name.Matches` and `dns.IsSubDomain`
are not under src/.  Per the spec (§4.1, "falls under the configured
zone", "exclusions are checked by suffix/zone match"), a name is
represented as its list of labels (least significant first is not
needed; the zone's labels must be a suffix of the name's labels), and a
zone matches a name exactly when its labels are a suffix of the name's
labels (which includes equality). -/
def nameMatches (zone name : List String) : Bool :=
  zone.isSuffixOf name

/-- The configuration fields of `Forward` consulted by admission
(src/forward.go lines 32-33): `from` (a Lean keyword, hence `from_`) and
`ignored`. -/
structure ForwardCfg where
  from_ : List String
  ignored : List (List String)

/-- `Forward.isAllowedDomain`, src/forward.go lines 222-233:

    if dns.Name(name) == dns.Name(f.from) { return true }
    for _, ignore := range f.ignored {
      if plugin.Name(ignore).Matches(name) { return false }
    }
    return true
-/
def isAllowedDomain (f : ForwardCfg) (name : List String) : Bool :=
  if name = f.from_ then true
  else f.ignored.all (fun ignore => !nameMatches ignore name)

/-- `Forward.match`, src/forward.go lines 214-220 (named `fmatch` because
`match` is a Lean keyword):

    if !plugin.Name(f.from).Matches(state.Name()) || !f.isAllowedDomain(state.Name()) {
      return false
    }
    return true
-/
def fmatch (f : ForwardCfg) (name : List String) : Bool :=
  nameMatches f.from_ name && isAllowedDomain f name

/-- An address record in the sense of the aggregation switch: an A or an
AAAA resource record. -/
def isAddrRR (rr : RR) : Bool :=
  rr.rrtype == typeA || rr.rrtype == typeAAAA

/-- Spec-side formula for claim C2: the concatenation, over the collected
responses in collection order, of the A and AAAA records of each
non-nil reply's answer section. -/
def allAddrAnswers : List fwdResp → List RR
  | [] => []
  | r :: rs =>
    (match r.ret with
     | none => []
     | some m => m.answer.filter isAddrRR)
      ++ allAddrAnswers rs

/-- The reply, among those of one collected response, that the
aggregation pass would leave in `successRet` if this response were
processed last: its reply when it contains an address record, nothing
otherwise. -/
def addrTemplate (r : fwdResp) : Option Msg :=
  match r.ret with
  | some m => if m.answer.any isAddrRR then some m else none
  | none => none

/-- The last reply, in collection order, from which an address record is
collected. -/
def lastAddrReply : List fwdResp → Option Msg
  | [] => none
  | r :: rs => (lastAddrReply rs).or (addrTemplate r)

/-- Spec-side formula for claim C9: the last successful (non-nil) reply
in collection order. -/
def lastSuccessReply : List fwdResp → Option Msg
  | [] => none
  | r :: rs => (lastSuccessReply rs).or r.ret

/-- A fixed request message for concrete instantiations. -/
def reqEx : Msg := { id := 0, rcode := 0, truncated := false, answer := [] }

/-- A concrete reply holding one A record. -/
def msgA : Msg := { id := 1, rcode := 0, truncated := false, answer := [{ rrtype := 1, rdata := 5 }] }

/-- A concrete successful response carrying `msgA`. -/
def respA : fwdResp := { ret := some msgA, code := 0, upstreamErr := none }

/-- A concrete reply with an empty answer section. -/
def msgEmpty : Msg := { id := 2, rcode := 0, truncated := false, answer := [] }

/-- A concrete successful response carrying `msgEmpty`. -/
def respEmpty : fwdResp := { ret := some msgEmpty, code := 0, upstreamErr := none }

/-- A concrete failure response. -/
def respErr : fwdResp := { ret := none, code := 0, upstreamErr := some (Err.generic 3) }

/-! ## Helper lemmas about the aggregation pass -/

theorem collectRR_eq (m : Msg) (acc : Option Msg × List RR) (rr : RR) :
    collectRR m acc rr = if isAddrRR rr then (some m, acc.2 ++ [rr]) else acc := by
  by_cases hA : rr.rrtype = typeA
  · simp [collectRR, isAddrRR, hA]
  · by_cases h4 : rr.rrtype = typeAAAA
    · simp [collectRR, isAddrRR, hA, h4]
    · simp [collectRR, isAddrRR, hA, h4]

theorem foldl_collectRR_snd (m : Msg) :
    ∀ (ans : List RR) (acc : Option Msg × List RR),
      (ans.foldl (collectRR m) acc).2 = acc.2 ++ ans.filter isAddrRR := by
  intro ans
  induction ans with
  | nil => intro acc; simp
  | cons a ans ih =>
    intro acc
    rw [List.foldl_cons, ih, collectRR_eq, List.filter_cons]
    by_cases h : isAddrRR a
    · simp [h, List.append_assoc]
    · simp [h]

theorem foldl_collectRR_fst (m : Msg) :
    ∀ (ans : List RR) (acc : Option Msg × List RR),
      (ans.foldl (collectRR m) acc).1 =
        if ans.any isAddrRR then some m else acc.1 := by
  intro ans
  induction ans with
  | nil => intro acc; simp
  | cons a ans ih =>
    intro acc
    rw [List.foldl_cons, ih, collectRR_eq, List.any_cons]
    by_cases h : isAddrRR a
    · by_cases h2 : ans.any isAddrRR <;> simp [h, h2]
    · simp [h]

theorem collectResp_snd (acc : Option Msg × List RR) (r : fwdResp) :
    (collectResp acc r).2 =
      acc.2 ++ (match r.ret with
                | none => []
                | some m => m.answer.filter isAddrRR) := by
  cases hr : r.ret with
  | none => simp [collectResp, hr]
  | some m => simp [collectResp, hr, foldl_collectRR_snd]

theorem collectResp_fst (acc : Option Msg × List RR) (r : fwdResp) :
    (collectResp acc r).1 = (addrTemplate r).or acc.1 := by
  cases hr : r.ret with
  | none => simp [collectResp, hr, addrTemplate, Option.or]
  | some m =>
    rw [collectResp, hr, foldl_collectRR_fst, addrTemplate, hr]
    by_cases h : m.answer.any isAddrRR <;> simp [h, Option.or]

theorem allAddrAnswers_eq (r : fwdResp) (rs : List fwdResp) :
    allAddrAnswers (r :: rs) =
      (match r.ret with
       | none => []
       | some m => m.answer.filter isAddrRR) ++ allAddrAnswers rs := by
  cases hr : r.ret with
  | none => simp [allAddrAnswers, hr]
  | some m => simp [allAddrAnswers, hr, isAddrRR]

theorem collect_aux_snd :
    ∀ (rs : List fwdResp) (acc : Option Msg × List RR),
      (rs.foldl collectResp acc).2 = acc.2 ++ allAddrAnswers rs := by
  intro rs
  induction rs with
  | nil => intro acc; simp [allAddrAnswers]
  | cons r rs ih =>
    intro acc
    rw [List.foldl_cons, ih, allAddrAnswers_eq, collectResp_snd]
    cases hr : r.ret <;> simp [List.append_assoc]

/-- The combined answer list the aggregation pass produces is exactly the
concatenation of the address records of the non-nil replies, in
collection order. -/
theorem collect_snd (rs : List fwdResp) : (collect rs).2 = allAddrAnswers rs := by
  rw [collect, collect_aux_snd]; rfl

theorem collect_aux_fst :
    ∀ (rs : List fwdResp) (acc : Option Msg × List RR),
      (rs.foldl collectResp acc).1 = (lastAddrReply rs).or acc.1 := by
  intro rs
  induction rs with
  | nil => intro acc; simp [lastAddrReply, Option.or]
  | cons r rs ih =>
    intro acc
    rw [List.foldl_cons, ih, collectResp_fst, lastAddrReply, Option.or_assoc]

/-- The `successRet` the aggregation pass leaves behind is the last reply
from which an address record was collected. -/
theorem collect_fst (rs : List fwdResp) : (collect rs).1 = lastAddrReply rs := by
  rw [collect, collect_aux_fst]
  exact Option.or_none

theorem lastAddrReply_none :
    ∀ (rs : List fwdResp), lastAddrReply rs = none → allAddrAnswers rs = [] := by
  intro rs
  induction rs with
  | nil => intro _; rfl
  | cons r rs ih =>
    intro h
    rw [lastAddrReply] at h
    rcases Option.or_eq_none.mp h with ⟨h1, h2⟩
    rw [allAddrAnswers_eq, ih h1, List.append_nil]
    cases hr : r.ret with
    | none => rfl
    | some m =>
      rw [addrTemplate, hr] at h2
      by_cases hm : m.answer.any isAddrRR
      · simp [hm] at h2
      · rw [List.filter_eq_nil_iff]
        intro a ha
        have := (List.any_eq_true).not.mp (by simpa using hm)
        push_neg at this
        exact fun hc => (this a ha) hc

theorem allAddrAnswers_ne_nil {rs : List fwdResp} {r : fwdResp} {m : Msg}
    (hr : r ∈ rs) (hm : r.ret = some m) (ha : m.answer.any isAddrRR = true) :
    allAddrAnswers rs ≠ [] := by
  induction rs with
  | nil => cases hr
  | cons x xs ih =>
    rw [allAddrAnswers_eq]
    intro hnil
    rcases List.append_eq_nil.mp hnil with ⟨h1, h2⟩
    rcases List.mem_cons.mp hr with hx | hx
    · subst hx
      rw [hm] at h1
      rcases List.any_eq_true.mp ha with ⟨a, haa, hpa⟩
      have := List.filter_eq_nil_iff.mp h1 a haa
      exact this hpa
    · exact ih hx h2

/-- Permuting the collected responses permutes the combined answer list:
the combined answer is, as a multiset, independent of arrival order. -/
theorem allAddrAnswers_perm :
    ∀ {rs rs' : List fwdResp}, rs.Perm rs' →
      (allAddrAnswers rs).Perm (allAddrAnswers rs') := by
  intro rs rs' h
  induction h with
  | nil => exact List.Perm.refl _
  | cons x _ ih =>
    rw [allAddrAnswers_eq, allAddrAnswers_eq]
    exact List.Perm.append_left _ ih
  | swap x y l =>
    rw [allAddrAnswers_eq, allAddrAnswers_eq, allAddrAnswers_eq, allAddrAnswers_eq,
        ← List.append_assoc, ← List.append_assoc]
    exact List.Perm.append_right _ List.perm_append_comm
  | trans _ _ ih1 ih2 => exact List.Perm.trans ih1 ih2

/-! ## Helper lemmas about the worker loop -/

/-- When the next Connect result is a plain error (not the cached-closed
sentinel, nil reply), the inner retry loop returns it at once. -/
theorem connectLoop_plainErr {c : ConnectResult} (rest : List ConnectResult)
    (opts : options) (hret : c.ret = none) (k : Nat)
    (herr : c.err = some (Err.generic k)) :
    connectLoop (c :: rest) opts =
      some { ret := c.ret, err := c.err, opts := opts, rest := rest, calls := 1 } := by
  simp [connectLoop, herr, hret]

/-- Whatever a worker run terminates with, it pushed at most one value
to the results channel. -/
theorem workerGo_len_le_one (opts0 : options) (mq : Option Msg → Bool)
    (req : Msg) (maxfails : Nat) (down : Nat → Bool) :
    ∀ (gas : Nat) (conns : List ConnectResult) (acc : Nat)
      (pushed : List fwdResp) (n : Nat),
      workerGo opts0 mq req maxfails down gas conns acc = some (pushed, n) →
      pushed.length ≤ 1 := by
  intro gas
  induction gas with
  | zero =>
    intro conns acc pushed n h
    simp only [workerGo] at h
    obtain ⟨h1, h2⟩ := Prod.mk.injEq .. ▸ (Option.some.injEq .. ▸ h)
    simp [← h1]
  | succ gas ih =>
    intro conns acc pushed n h
    rcases hc : connectLoop conns opts0 with _ | o
    · simp only [workerGo, hc] at h
      cases h
    · simp only [workerGo, hc] at h
      rcases he : o.err with _ | e
      · simp only [he] at h
        by_cases hm : mq o.ret = true
        · simp only [hm, Bool.not_true, Bool.false_eq_true, if_false] at h
          obtain ⟨h1, h2⟩ := Prod.mk.injEq .. ▸ (Option.some.injEq .. ▸ h)
          simp [← h1]
        · simp only [Bool.not_eq_true] at hm
          simp only [hm, Bool.not_false, if_true] at h
          obtain ⟨h1, h2⟩ := Prod.mk.injEq .. ▸ (Option.some.injEq .. ▸ h)
          simp [← h1]
      · simp only [he] at h
        by_cases hd : down (maxfails - gas) = true
        · rw [if_pos hd] at h
          obtain ⟨h1, h2⟩ := Prod.mk.injEq .. ▸ (Option.some.injEq .. ▸ h)
          simp [← h1]
        · rw [if_neg hd] at h
          exact ih o.rest (acc + o.calls) pushed n h

/-- A worker whose Connect calls all yield a plain transport error, run
against the spec-modelled health predicate, pushes the one failure
outcome after consuming exactly its remaining failure budget in Connect
calls. -/
theorem workerGo_allErr (opts0 : options) (mq : Option Msg → Bool)
    (req : Msg) (maxfails : Nat) :
    ∀ (gas : Nat) (conns : List ConnectResult) (acc : Nat),
      0 < gas → gas ≤ maxfails → gas ≤ conns.length →
      (∀ c ∈ conns, c.ret = none ∧ ∃ k, c.err = some (Err.generic k)) →
      ∃ k, workerGo opts0 mq req maxfails (specDown maxfails) gas conns acc =
        some ([{ ret := none, code := 0, upstreamErr := some (Err.generic k) }],
              acc + gas) := by
  intro gas
  induction gas with
  | zero => intro conns acc h0; cases h0
  | succ g ih =>
    intro conns acc _ hle hlen hall
    cases conns with
    | nil => simp at hlen
    | cons c rest =>
      obtain ⟨hret, k, herr⟩ := hall c (List.mem_cons_self c rest)
      have hcl := connectLoop_plainErr rest opts0 hret k herr
      by_cases hg : g = 0
      · subst hg
        refine ⟨k, ?_⟩
        simp only [workerGo, hcl, herr, specDown, Nat.sub_zero]
        simp
      · have hgt : 0 < g := Nat.pos_of_ne_zero hg
        have hd : specDown maxfails (maxfails - g) = false := by
          simp only [specDown, decide_eq_false_iff_not]
          omega
        have hlen' : g ≤ rest.length := by
          simp only [List.length_cons] at hlen
          omega
        obtain ⟨k', hrec⟩ := ih rest (acc + 1) hgt (Nat.le_of_succ_le hle) hlen'
          (fun x hx => hall x (List.mem_cons_of_mem c hx))
        refine ⟨k', ?_⟩
        have hacc : acc + 1 + g = acc + (g + 1) := by omega
        simp only [workerGo, hcl, herr, hd, Bool.false_eq_true, if_false]
        rw [hrec, hacc]

/-! ## Helper lemmas about the full ServeDNS path -/

/-- With `maxfails = 0`, every worker returns immediately having pushed
nothing and made no Connect call. -/
theorem mapM_worker_zero (opts0 : options) (mq : Option Msg → Bool) (req : Msg) :
    ∀ (l : List ProxyM),
      l.mapM (fun p => worker opts0 mq req 0 p.down p.conns) =
        some (l.map (fun _ => (([] : List fwdResp), 0))) := by
  intro l
  induction l with
  | nil => rfl
  | cons p l ih =>
    rw [List.mapM_cons, ih]
    rfl

theorem flatten_map_nil {α β : Type} :
    ∀ (l : List α), (l.map (fun _ => ([] : List β))).flatten = [] := by
  intro l
  induction l with
  | nil => rfl
  | cons a l ih => simp [ih]

/-! ## The claims -/

/-- Claim C1, counterexample: the claim asserts that every worker for a
live upstream pushes exactly one result before exiting, for every
sequence of Connect results, every `maxfails`, and every behaviour of
the `Down` predicate.  At `maxfails = 1`, a single plain Connect error
and a `Down` predicate that stays false, the loop condition
`fails < maxfails` fails after the error and the worker exits having
pushed nothing. -/
theorem claim_C1_counterexample :
    ¬ (∀ (pushed : List fwdResp) (n : Nat),
        worker { forceTCP := false, preferUDP := false } (fun _ => true) reqEx 1
            (fun _ => false) [{ ret := none, err := some (Err.generic 0) }] =
          some (pushed, n) →
        pushed.length = 1) := by
  intro h
  have hw : worker { forceTCP := false, preferUDP := false } (fun _ => true) reqEx 1
      (fun _ => false) [{ ret := none, err := some (Err.generic 0) }] =
      some ([], 1) := by rfl
  exact absurd (h [] 1 hw) (by decide)

/-- Claim C1 (amended): a worker for a live upstream pushes at most one
result to the results channel before exiting; it can push none, namely
when `maxfails = 0` (the loop body never runs) or when the failure
counter reaches `maxfails` while the proxy's `Down` predicate is still
false at every check. -/
theorem claim_C1_amended (opts0 : options) (mq : Option Msg → Bool) (req : Msg)
    (maxfails : Nat) (down : Nat → Bool) (conns : List ConnectResult)
    (pushed : List fwdResp) (n : Nat)
    (h : worker opts0 mq req maxfails down conns = some (pushed, n)) :
    pushed.length ≤ 1 ∧ (maxfails = 0 → pushed = []) := by
  constructor
  · exact workerGo_len_le_one opts0 mq req maxfails down maxfails conns 0 pushed n h
  · intro h0
    subst h0
    have hz : worker opts0 mq req 0 down conns = some ([], 0) := rfl
    rw [hz] at h
    simp only [Option.some.injEq, Prod.mk.injEq] at h
    exact h.1.symm

/-- Claim C1, witness for the amended claim at a concrete input. -/
theorem claim_C1_witness :
    ([({ ret := some reqEx, code := 0, upstreamErr := none } : fwdResp)]).length ≤ 1 ∧
      (1 = 0 → [({ ret := some reqEx, code := 0, upstreamErr := none } : fwdResp)] = []) :=
  claim_C1_amended { forceTCP := false, preferUDP := false } (fun _ => true) reqEx 1
    (fun _ => true) [{ ret := some reqEx, err := none }]
    [{ ret := some reqEx, code := 0, upstreamErr := none }] 1 rfl

/-- Claim C2: when at least one successful reply contains an address
record, the answer section of the reply ServeDNS writes is exactly the
concatenation, in collection order and with duplicates preserved, of
the A and AAAA records of every successful reply; and permuting the
collected results (any arrival order) permutes the combined list, so as
a multiset it is arrival-order independent. -/
theorem claim_C2 (resps resps' : List fwdResp)
    (hsucc : ∃ r ∈ resps, ∃ m, r.ret = some m ∧ m.answer.any isAddrRR = true)
    (hperm : resps.Perm resps') :
    serveAnswer (finish resps) = some (allAddrAnswers resps) ∧
      ((collect resps').2).Perm ((collect resps).2) := by
  obtain ⟨r, hr, m, hm, ha⟩ := hsucc
  have hne : allAddrAnswers resps ≠ [] := allAddrAnswers_ne_nil hr hm ha
  have hlen : 0 < (collect resps).2.length := by
    rw [collect_snd]
    exact List.length_pos.mpr hne
  constructor
  · have htm : lastAddrReply resps ≠ none := fun hn => hne (lastAddrReply_none resps hn)
    obtain ⟨tm, htm'⟩ := Option.ne_none_iff_exists'.mp htm
    rw [finish, if_pos hlen, collect_fst, htm']
    simp [serveAnswer, collect_snd]
  · rw [collect_snd, collect_snd]
    exact allAddrAnswers_perm hperm.symm

/-- Claim C2, witness at a concrete input. -/
theorem claim_C2_witness :
    serveAnswer (finish [respA]) = some (allAddrAnswers [respA]) ∧
      ((collect [respA]).2).Perm ((collect [respA]).2) :=
  claim_C2 [respA] [respA] ⟨respA, by simp, msgA, rfl, by decide⟩ (List.Perm.refl _)

/-- Claim C3: when every upstream of the policy's list is filtered out
as down (the live set is empty), ServeDNS returns the server-failure
rcode with `ErrNoHealthy` and writes no reply (the result is a
`ServeResult.failed`, not a `ServeResult.written`). -/
theorem claim_C3 (maxfails : Nat) (opts0 : options) (mq : Option Msg → Bool)
    (req : Msg) (list : List ProxyM)
    (hlive : list.filter (fun p => !p.downAtDispatch) = []) :
    serveDNS maxfails opts0 mq req list =
      some (ServeResult.failed rcodeServerFailure (some Err.noHealthy)) := by
  rw [serveDNS, hlive]
  rfl

/-- Claim C3, witness at a concrete input: one proxy, already down. -/
theorem claim_C3_witness :
    serveDNS 3 { forceTCP := false, preferUDP := false } (fun _ => true) reqEx
        [{ downAtDispatch := true, down := fun _ => false, conns := [] }] =
      some (ServeResult.failed rcodeServerFailure (some Err.noHealthy)) :=
  claim_C3 3 { forceTCP := false, preferUDP := false } (fun _ => true) reqEx
    [{ downAtDispatch := true, down := fun _ => false, conns := [] }] rfl

/-- Claim C4: when no address record was collected, ServeDNS returns the
server-failure rcode carrying the first collected transport error if
there is one, and `ErrNoHealthy` otherwise (`Option.getD` folds the two
cases: `firstUpstreamErr` is the first non-nil error in collection
order). -/
theorem claim_C4 (resps : List fwdResp) (hip : (collect resps).2 = []) :
    finish resps =
      ServeResult.failed rcodeServerFailure
        (some ((firstUpstreamErr resps).getD Err.noHealthy)) := by
  rw [finish, hip]
  simp only [List.length_nil, Nat.lt_irrefl, if_false]
  cases he : firstUpstreamErr resps <;> simp [he]

/-- Claim C4, witness at a concrete input: one failed response. -/
theorem claim_C4_witness :
    finish [respErr] =
      ServeResult.failed rcodeServerFailure
        (some ((firstUpstreamErr [respErr]).getD Err.noHealthy)) :=
  claim_C4 [respErr] rfl

/-- Claim C5: with the spec-modelled health predicate (`Proxy.Down` is
not under src/; per spec §4.3 the worker goes terminal when its failure
counter reaches the threshold), a worker whose Connect calls all return
a plain transport error (never the cached-closed sentinel, never a
truncated reply) terminates after exactly `maxfails` Connect calls. -/
theorem claim_C5 (opts0 : options) (mq : Option Msg → Bool) (req : Msg)
    (maxfails : Nat) (conns : List ConnectResult)
    (hpos : 0 < maxfails) (hlen : maxfails ≤ conns.length)
    (hall : ∀ c ∈ conns, c.ret = none ∧ ∃ k, c.err = some (Err.generic k)) :
    (worker opts0 mq req maxfails (specDown maxfails) conns).map Prod.snd =
      some maxfails := by
  obtain ⟨k, hk⟩ :=
    workerGo_allErr opts0 mq req maxfails maxfails conns 0 hpos (le_refl _) hlen hall
  rw [worker, hk]
  simp

/-- Claim C5, witness at a concrete input: `maxfails = 2`, two failing
Connect results. -/
theorem claim_C5_witness :
    (worker { forceTCP := false, preferUDP := false } (fun _ => true) reqEx 2
        (specDown 2)
        [{ ret := none, err := some (Err.generic 0) },
         { ret := none, err := some (Err.generic 1) }]).map Prod.snd = some 2 :=
  claim_C5 { forceTCP := false, preferUDP := false } (fun _ => true) reqEx 2
    [{ ret := none, err := some (Err.generic 0) },
     { ret := none, err := some (Err.generic 1) }]
    (by decide) (by decide)
    (by
      intro c hc
      simp only [List.mem_cons, List.mem_singleton] at hc
      rcases hc with hc | hc | hc
      · subst hc; exact ⟨rfl, 0, rfl⟩
      · subst hc; exact ⟨rfl, 1, rfl⟩
      · cases hc)

/-- Claim C6: when the inner Connect loop ends without error but the
reply fails `state.Match`, the worker pushes a synthesized reply with
rcode FormatError and a nil error, and terminates at once: the result
holds for every remaining budget `gas + 1` and every `Down` predicate,
and the push carries `upstreamErr = none`, so the failure counter is
neither consulted nor incremented. -/
theorem claim_C6 (opts0 : options) (mq : Option Msg → Bool) (req : Msg)
    (maxfails : Nat) (down : Nat → Bool) (gas : Nat)
    (conns : List ConnectResult) (acc : Nat) (o : ConnectOut)
    (hconn : connectLoop conns opts0 = some o)
    (herr : o.err = none) (hmatch : mq o.ret = false) :
    workerGo opts0 mq req maxfails down (gas + 1) conns acc =
      some ([{ ret := some (formErrMsg req), code := 0, upstreamErr := none }],
            acc + o.calls) ∧
      (formErrMsg req).rcode = rcodeFormatError := by
  refine ⟨?_, rfl⟩
  simp only [workerGo, hconn, herr, hmatch, Bool.not_false, if_true]

/-- Claim C6, witness at a concrete input. -/
theorem claim_C6_witness :
    workerGo { forceTCP := false, preferUDP := false } (fun _ => false) reqEx 2
        (fun _ => false) 2 [{ ret := some msgEmpty, err := none }] 0 =
      some ([{ ret := some (formErrMsg reqEx), code := 0, upstreamErr := none }],
            0 + 1) ∧
      (formErrMsg reqEx).rcode = rcodeFormatError :=
  claim_C6 { forceTCP := false, preferUDP := false } (fun _ => false) reqEx 2
    (fun _ => false) 1 [{ ret := some msgEmpty, err := none }] 0
    { ret := some msgEmpty, err := none,
      opts := { forceTCP := false, preferUDP := false }, rest := [], calls := 1 }
    rfl rfl rfl

/-- Claim C7: when a Connect call of the inner loop delivers a non-nil
truncated reply (so not the cached-closed sentinel, which the transport
returns with a nil reply and which the loop checks first) while
`forceTCP` is not yet set and `preferUDP` is configured, the loop sets
`forceTCP := true` in its private options and retries the Connect call.
The escalation happens inside the inner loop, before the outer loop
ever looks at the error, so the failure counter is untouched. -/
theorem claim_C7 (c : ConnectResult) (m : Msg) (rest : List ConnectResult)
    (opts : options) (hret : c.ret = some m) (htr : m.truncated = true)
    (hft : opts.forceTCP = false) (hpu : opts.preferUDP = true)
    (hcc : c.err ≠ some Err.cachedClosed) :
    connectLoop (c :: rest) opts =
      (connectLoop rest { forceTCP := true, preferUDP := true }).map
        (fun o => { o with calls := o.calls + 1 }) := by
  simp [connectLoop, hret, htr, hft, hpu, hcc]

/-- Claim C7, witness at a concrete input: one truncated UDP reply with
UDP preference configured. -/
theorem claim_C7_witness :
    connectLoop [{ ret := some { id := 1, rcode := 0, truncated := true, answer := [] },
                   err := none }] { forceTCP := false, preferUDP := true } =
      (connectLoop [] { forceTCP := true, preferUDP := true }).map
        (fun o => { o with calls := o.calls + 1 }) :=
  claim_C7 { ret := some { id := 1, rcode := 0, truncated := true, answer := [] },
             err := none }
    { id := 1, rcode := 0, truncated := true, answer := [] } []
    { forceTCP := false, preferUDP := true } rfl rfl rfl rfl (by decide)

/-- Claim C8: away from the apex, `match` admits a query iff its name
falls under the configured zone and no exclusion pattern matches it;
and when the name equals the configured zone exactly, the exclusion
patterns are bypassed and the query is admitted (the claim's second
clause carves the apex out of the first clause's iff). -/
theorem claim_C8 (f : ForwardCfg) (name : List String) :
    (name ≠ f.from_ →
      (fmatch f name = true ↔
        nameMatches f.from_ name = true ∧
          ∀ ig ∈ f.ignored, nameMatches ig name = false)) ∧
    (name = f.from_ → fmatch f name = true) := by
  constructor
  · intro hne
    rw [fmatch, isAllowedDomain, if_neg hne]
    simp [List.all_eq_true]
  · intro heq
    subst heq
    rw [fmatch, isAllowedDomain, if_pos rfl]
    simp [nameMatches, List.isSuffixOf_iff_suffix]

/-- Claim C8, witness at a concrete input: the apex is admitted even
when an exclusion pattern covers it. -/
theorem claim_C8_witness :
    fmatch { from_ := ["org"], ignored := [["org"]] } ["org"] = true :=
  (claim_C8 { from_ := ["org"], ignored := [["org"]] } ["org"]).2 rfl

/-- Claim C9, counterexample: the claim asserts that whenever the
combined answer list is non-empty, the template for the written reply is
the last successful reply in collection order, even when that last
successful reply contains no address record.  With one reply holding an
A record followed by one successful reply with an empty answer section,
the code keeps the first reply as template (`successRet` is only
updated when an address record is appended), not the last successful
one. -/
theorem claim_C9_counterexample :
    ¬ (∀ resps : List fwdResp, (collect resps).2 ≠ [] →
        (collect resps).1 = lastSuccessReply resps) := by
  intro h
  have hx := h [respA, respEmpty] (by decide)
  exact absurd hx (by decide)

/-- Claim C9 (amended): when the combined answer list is non-empty, the
template used for the written reply is the last reply, in collection
order, from which an address record was collected (not the last
successful reply). -/
theorem claim_C9_amended (resps : List fwdResp)
    (hne : (collect resps).2 ≠ []) :
    (collect resps).1 = lastAddrReply resps ∧
      serveWritten (finish resps) =
        (lastAddrReply resps).map (fun m => { m with answer := (collect resps).2 }) := by
  have h1 := collect_fst resps
  refine ⟨h1, ?_⟩
  have hlen : 0 < (collect resps).2.length := List.length_pos.mpr hne
  have htm : lastAddrReply resps ≠ none := by
    intro hn
    apply hne
    rw [collect_snd]
    exact lastAddrReply_none resps hn
  obtain ⟨tm, htm'⟩ := Option.ne_none_iff_exists'.mp htm
  rw [finish, if_pos hlen, h1, htm']
  simp [serveWritten]

/-- Claim C9, witness for the amended claim at a concrete input. -/
theorem claim_C9_witness :
    (collect [respA]).1 = lastAddrReply [respA] ∧
      serveWritten (finish [respA]) =
        (lastAddrReply [respA]).map (fun m => { m with answer := (collect [respA]).2 }) :=
  claim_C9_amended [respA] (by decide)

/-- Claim C10: with `maxfails = 0`, every worker's loop body never runs
(its run is `some ([], 0)`: no Connect call, no pushed result), and
ServeDNS returns the server-failure rcode with `ErrNoHealthy`. -/
theorem claim_C10 (opts0 : options) (mq : Option Msg → Bool) (req : Msg)
    (list : List ProxyM) :
    (list.map (fun p => worker opts0 mq req 0 p.down p.conns) =
      list.map (fun _ => some (([] : List fwdResp), 0))) ∧
    serveDNS 0 opts0 mq req list =
      some (ServeResult.failed rcodeServerFailure (some Err.noHealthy)) := by
  constructor
  · rfl
  · rw [serveDNS, mapM_worker_zero]
    have h2 : (List.map Prod.fst
          ((list.filter (fun p => !p.downAtDispatch)).map
            (fun _ => (([] : List fwdResp), 0)))).flatten = ([] : List fwdResp) := by
      rw [List.map_map]
      exact flatten_map_nil _
    simp only [Option.map, h2]
    rfl

end PForward
